import Mathlib

/-!
Verification of the Shopify migration tool (`scripts/load.py`).

The Python source is shallowly embedded: order records (Python dicts loaded
from JSON) become association lists of JSON-like values, stateful functions
become explicit state passing, the HTTP layer is abstracted as an environment
mapping request indices to outcomes, and Python exceptions become explicit
result constructors.
-/

set_option autoImplicit false

/-- JSON-like values stored in an order record.  Python `None` is `null`; JSON
numbers are modelled as integers (no field touched by these properties is
fractional).  The fields the source reads or writes (`financial_status`,
`processed_at`, `created_at`, `email`, `woo_order_id`, phones) are scalars, so
nested arrays/objects are not modelled; they would only add further truthy
values. -/
inductive JVal where
  | null
  | boolean (b : Bool)
  | num (n : Int)
  | str (s : String)
  deriving Repr, DecidableEq

/-- An order record: a Python dict from string keys to JSON values, modelled
as an association list with distinct keys maintained by the operations. -/
abbrev Order : Type := List (String × JVal)

/-- `d.get(key)` on a Python dict: `none` when the key is absent. -/
def dget : Order → String → Option JVal
  | [], _ => none
  | (k, v) :: d, key => if k = key then some v else dget d key

/-- `d[key] = v` on a Python dict: replace the value if the key is present,
otherwise append the new key (Python dicts keep insertion order). -/
def dset : Order → String → JVal → Order
  | [], key, v => [(key, v)]
  | (k, w) :: d, key, v => if k = key then (k, v) :: d else (k, w) :: dset d key v

/-- `del d[key]` on a Python dict (also the identity when the key is absent,
matching the guarded `if 'processed_at' in order: del ...` in the source). -/
def ddel : Order → String → Order
  | [], _ => []
  | (k, w) :: d, key => if k = key then ddel d key else (k, w) :: ddel d key

/-- Python truthiness of `d.get(key)`: `None`, `False`, `0`, `""`, `[]`, `{}`
and an absent key are falsy, everything else truthy. -/
def truthy : Option JVal → Bool
  | none => false
  | some .null => false
  | some (.boolean b) => b
  | some (.num n) => n != 0
  | some (.str s) => s != ""

/-- `d.get(key)` where the absent case is collapsed to Python `None`, for the
places where the source stores or compares the result directly. -/
def pyget (d : Order) (key : String) : JVal :=
  (dget d key).getD .null

/-- `fix_order_data_for_shopify` (scripts/load.py lines 302-342), embedded
with explicit state passing for the in-place dict mutation: the result pairs
the Python return value (`none` = the function returned `None`) with the final
state of the caller's dict object after the call.  The `elif` chain of the
source collapses to: falsy `processed_at` is overwritten with
`order.get('created_at')`; a truthy `processed_at` equal to `None`, `''` or
`'null'` is likewise overwritten (of these only `'null'` is reachable, since
`None` and `''` are falsy); otherwise it is kept.  Non-paid orders have the
key deleted.  The debug `print` calls are pure logging and are not modelled. -/
def fix_order_data_run (order : Order) : Option Order × Order :=
  if dget order "financial_status" = some (.str "voided") then
    (none, order)
  else
    let order1 :=
      if dget order "financial_status" = some (.str "paid") then
        if truthy (dget order "processed_at") = false then
          dset order "processed_at" (pyget order "created_at")
        else if dget order "processed_at" = some .null ∨
            dget order "processed_at" = some (.str "") ∨
            dget order "processed_at" = some (.str "null") then
          dset order "processed_at" (pyget order "created_at")
        else
          order
      else
        ddel order "processed_at"
    if truthy (dget order1 "email") = false then
      (none, order1)
    else
      (some order1, order1)

/-- The return value of `fix_order_data_for_shopify`. -/
def fix_order_data_for_shopify (order : Order) : Option Order :=
  (fix_order_data_run order).1

/-- The digit characters of a phone string: `re.sub(r'[^\d]', '', str(phone))`
(scripts/load.py line 219), restricted to ASCII digits. -/
def strip_digits (phone : String) : String :=
  String.mk (phone.data.filter Char.isDigit)

/-- `format_phone_e164` (scripts/load.py lines 212-233).  The falsy-input
guard `if not phone` is the empty-string test once the input is a string. -/
def format_phone_e164 (phone : String) : Option String :=
  if phone = "" then
    none
  else
    let digits_only := strip_digits phone
    if digits_only.length = 10 then
      some ("+1" ++ digits_only)
    else if digits_only.length = 11 ∧ digits_only.data.head? = some '1' then
      some ("+" ++ digits_only)
    else if 10 ≤ digits_only.length then
      some ("+" ++ digits_only)
    else
      none

/-- The progress file `data/upload_progress.json` as seen by the store
functions: absent, unreadable/unparsable, or a parsed JSON object holding the
`completed_orders` list and `last_updated` timestamp.  A parsed object lacking
the `completed_orders` key behaves like `valid []` (`data.get(..., [])`), and
any parse error behaves like `corrupt`; both are collapsed accordingly. -/
inductive ProgressFile where
  | missing
  | corrupt
  | valid (completed_orders : List JVal) (last_updated : Nat)
  deriving Repr, DecidableEq

/-- `load_completed_orders` (scripts/load.py lines 34-44): `[]` when the file
does not exist, `[]` on any exception (bare `except`), else the stored list. -/
def load_completed_orders : ProgressFile → List JVal
  | .missing => []
  | .corrupt => []
  | .valid l _ => l

/-- `save_completed_order` (scripts/load.py lines 20-32).  `now` is the
`time.time()` value written as `last_updated`; its value never influences the
stored id set.  When the id is already present nothing is written, so the file
state is unchanged. -/
def save_completed_order (woo_order_id : JVal) (now : Nat) (f : ProgressFile) : ProgressFile :=
  let completed_orders := load_completed_orders f
  if woo_order_id ∈ completed_orders then
    f
  else
    .valid (completed_orders ++ [woo_order_id]) now

/-- Split a character list at `'/'` separators, like Python `str.split('/')`:
always returns at least one (possibly empty) part. -/
def splitSlash : List Char → List (List Char)
  | [] => [[]]
  | c :: rest =>
    match splitSlash rest with
    | [] => [[]]
    | h :: t => if c = '/' then [] :: h :: t else (c :: h) :: t

/-- Value of a nonempty digit list, most significant digit first. -/
def digitsVal (l : List Char) : Nat :=
  l.foldl (fun a c => a * 10 + (c.toNat - 48)) 0

/-- Python `int(s)` on a header component: an optional sign followed by
digits; anything else raises `ValueError` (`none`).  (Python also tolerates
surrounding whitespace and underscore separators; such header components do
not occur and are modelled as failures.) -/
def pyInt : List Char → Option Int
  | '+' :: ds => if !ds.isEmpty && ds.all Char.isDigit then some (digitsVal ds) else none
  | '-' :: ds => if !ds.isEmpty && ds.all Char.isDigit then some (-(digitsVal ds : Int)) else none
  | ds => if !ds.isEmpty && ds.all Char.isDigit then some (digitsVal ds) else none

/-- `current, max_limit = map(int, rate_limit_header.split('/'))`: fails
(`ValueError`, hence `none`) unless the split yields exactly two parts and
both parse as integers. -/
def parseLimit (header : String) : Option (Int × Int) :=
  match (splitSlash header.data).map pyInt with
  | [some current, some max_limit] => some (current, max_limit)
  | _ => none

/-- `check_rate_limit_and_wait` (scripts/load.py lines 52-78), as a function
of the `X-Shopify-Shop-Api-Call-Limit` header (`none` = header absent, which
`headers.get` replaces by `'0/40'`).  Result: `.ok (wait, current, max)` means
the function slept `wait` seconds and returned `(current, max)`;
`.error ()` means `usage_percent = (current / max_limit) * 100` raised an
uncaught `ZeroDivisionError` (the `except` clause catches only `ValueError`
and `AttributeError`, the parse failures).  On parse failure the fallback
sleeps `0.5` and returns `(0, 40)`. -/
def check_rate_limit_and_wait (limitHeader : Option String) : Except Unit (ℚ × Int × Int) :=
  let rate_limit_header := limitHeader.getD "0/40"
  match parseLimit rate_limit_header with
  | none => .ok (1/2, 0, 40)
  | some (current, max_limit) =>
    if max_limit = 0 then
      .error ()
    else
      let wait_time : ℚ :=
        if 35 ≤ current then 2
        else if 30 ≤ current then 1
        else if 20 ≤ current then 1/2
        else 1/10
      .ok (wait_time, current, max_limit)

/-- Outcome of one `requests.post` call inside `upload_to_shopify`:
either a transport-level `requests.exceptions.RequestException` (connection
error, timeout), or an HTTP response with its status code, its optional
`Retry-After` header (already an integer; the source would raise on a
non-integer value, which is not modelled), its optional
`X-Shopify-Shop-Api-Call-Limit` header, and its parsed JSON body
(`response.json()`, abstracted to a value of type `β`). -/
inductive ReqOutcome (β : Type) where
  | exn
  | resp (status : Nat) (retryAfter : Option Nat) (limitHeader : Option String) (body : β)
  deriving Repr, DecidableEq

/-- A sleep performed during `upload_to_shopify`, in seconds. -/
inductive SleepEv where
  | retryAfter (n : Nat)
  | rateWait (q : ℚ)
  | backoff (n : Nat)
  | cyclePause
  deriving Repr, DecidableEq

/-- How one iteration of the attempt loop of `upload_to_shopify` ends the
cycle: `retBody` = `return response.json()`; `raiseReq` = the bare `raise`
re-raising a `RequestException` on the last attempt of the last cycle;
`raiseOther` = an exception not caught by the handler (the rate limiter's
`ZeroDivisionError` on a 200 response); `nextCycle` = the attempt loop ended
by `break` or by running out of attempts, so the cycle loop continues. -/
inductive InnerExit (β : Type) where
  | retBody (b : β)
  | raiseReq
  | raiseOther
  | nextCycle
  deriving Repr, DecidableEq

/-- Result of running the attempt loop: its exit, the total number of
requests issued so far, and the sleeps performed (in order). -/
structure InnerRes (β : Type) where
  exit : InnerExit β
  reqIdx : Nat
  sleeps : List SleepEv
  deriving Repr, DecidableEq

/-- The attempt loop `for attempt in range(max_retries)` of
`upload_to_shopify` (scripts/load.py lines 98-155), embedded as recursion on
the number of remaining attempts: `attemptsLeft = max_retries - attempt`, so
the Python guard `attempt < max_retries - 1` is `1 < attemptsLeft`, and the
backoff `2 ** attempt` is `2 ^ (R - attemptsLeft)`.  `env i` is the outcome of
the `i`-th request of the whole call; `isLast` says whether this is the final
retry cycle (`cycle = max_retry_cycles - 1`).

Per request: a 429 sleeps `Retry-After` (default 5) and `continue`s — which
moves the `for` loop to the *next* attempt; a 200 runs
`check_rate_limit_and_wait`, whose `ZeroDivisionError` would propagate
uncaught; a status in `[400, 600)` logs and calls `raise_for_status()`, whose
`HTTPError` is a `RequestException` and so lands in the same `except` handler
as transport errors; any other status falls through to
`return response.json()`.  The `except` handler backs off and retries while
attempts remain, `break`s to the next cycle after a 10s pause when attempts
are exhausted, and re-raises on the last attempt of the last cycle. -/
def runAttempts {β : Type} (env : Nat → ReqOutcome β) (R : Nat) (isLast : Bool) :
    Nat → Nat → InnerRes β
  | 0, i => ⟨.nextCycle, i, []⟩
  | k + 1, i =>
    match env i with
    | .exn =>
      if k = 0 then
        if isLast then ⟨.raiseReq, i + 1, []⟩
        else ⟨.nextCycle, i + 1, [.cyclePause]⟩
      else
        let rest := runAttempts env R isLast k (i + 1)
        ⟨rest.exit, rest.reqIdx, .backoff (2 ^ (R - (k + 1))) :: rest.sleeps⟩
    | .resp s ra lh b =>
      if s = 429 then
        let rest := runAttempts env R isLast k (i + 1)
        ⟨rest.exit, rest.reqIdx, .retryAfter (ra.getD 5) :: rest.sleeps⟩
      else if s = 200 then
        match check_rate_limit_and_wait lh with
        | .error _ => ⟨.raiseOther, i + 1, []⟩
        | .ok (w, _, _) => ⟨.retBody b, i + 1, [.rateWait w]⟩
      else if 400 ≤ s ∧ s < 600 then
        if k = 0 then
          if isLast then ⟨.raiseReq, i + 1, []⟩
          else ⟨.nextCycle, i + 1, [.cyclePause]⟩
        else
          let rest := runAttempts env R isLast k (i + 1)
          ⟨rest.exit, rest.reqIdx, .backoff (2 ^ (R - (k + 1))) :: rest.sleeps⟩
      else ⟨.retBody b, i + 1, []⟩

/-- How a call to `upload_to_shopify` ends: `ok` = `return response.json()`;
`raised` = a `RequestException` propagated after exhausting all retries;
`raisedOther` = an uncaught non-`RequestException` (the rate limiter's
`ZeroDivisionError`); `retNone` = both loops completed without returning or
raising, so the function implicitly returns `None`. -/
inductive UploadResult (β : Type) where
  | ok (b : β)
  | raised
  | raisedOther
  | retNone
  deriving Repr, DecidableEq

/-- Result of a call to `upload_to_shopify`: its outcome, the number of
requests issued, and the sleeps performed. -/
structure RunRes (β : Type) where
  result : UploadResult β
  reqs : Nat
  sleeps : List SleepEv
  deriving Repr, DecidableEq

/-- The cycle loop `for cycle in range(max_retry_cycles)` of
`upload_to_shopify`, as recursion on the number of remaining cycles; the
current cycle is the last one exactly when no cycle remains after it.  Falling
out of the loop yields the implicit `None`. -/
def runCycles {β : Type} (env : Nat → ReqOutcome β) (R : Nat) :
    Nat → Nat → RunRes β
  | 0, i => ⟨.retNone, i, []⟩
  | c + 1, i =>
    let inner := runAttempts env R (c == 0) R i
    match inner.exit with
    | .retBody b => ⟨.ok b, inner.reqIdx, inner.sleeps⟩
    | .raiseReq => ⟨.raised, inner.reqIdx, inner.sleeps⟩
    | .raiseOther => ⟨.raisedOther, inner.reqIdx, inner.sleeps⟩
    | .nextCycle =>
      let rest := runCycles env R c inner.reqIdx
      ⟨rest.result, rest.reqs, inner.sleeps ++ rest.sleeps⟩

/-- `upload_to_shopify` (scripts/load.py lines 80-155) for one item, as a
function of the environment `env` giving the outcome of each successive
request (the URL construction and request payload do not influence the control
flow and are not modelled; the initial debug printing is pure logging). -/
def upload_to_shopify {β : Type} (env : Nat → ReqOutcome β)
    (max_retries : Nat := 3) (max_retry_cycles : Nat := 5) : RunRes β :=
  runCycles env max_retries max_retry_cycles 0

/-- `True` of the outcomes on which `upload_to_shopify` returns to its caller
instead of raising: a parsed body, or the implicit `None`. -/
def returnedNormally {β : Type} : UploadResult β → Bool
  | .ok _ => true
  | .retNone => true
  | .raised => false
  | .raisedOther => false

/-- The request outcome is a 429 response. -/
def is429 {β : Type} : ReqOutcome β → Bool
  | .resp s _ _ _ => s == 429
  | .exn => false

/-- The request outcome is a transport failure or an HTTP error response that
`raise_for_status()` raises on (status in `[400, 600)` other than the 429
handled earlier): exactly the outcomes routed to the `except` handler. -/
def isFailure {β : Type} : ReqOutcome β → Bool
  | .resp s _ _ _ => (400 ≤ s && s < 600) && s != 429
  | .exn => true

/-- The per-item body of `batch_upload` (scripts/load.py lines 157-210),
folded over the item list.  The slicing `items[i:i+batch_size]` visits every
item exactly once in list order, so the two nested loops are a single pass and
`batch_size` does not influence the computation.  `net item` is the HTTP
environment the network presents while uploading `item`; `completed` is the
`completed_orders` list loaded once before the loop.  The state is
`(successes, progress file)`.

Per item, inside `try`: an orders item whose `woo_order_id` is in `completed`
is skipped and counted as a success; a customers item with falsy `email` is
skipped without counting; otherwise `upload_to_shopify` runs — if it raises
(either way), `except Exception` logs and continues, and if it returns
(a body or the implicit `None`), an orders item with truthy `woo_order_id` is
saved to the progress file and the item is counted as a success.  The
`time.time()` argument of the save is irrelevant to the stored set and fixed
at 0. -/
def batchGo {β : Type} (net : Order → Nat → ReqOutcome β) (endpoint : String)
    (completed : List JVal) : List Order → Nat × ProgressFile → Nat × ProgressFile
  | [], st => st
  | item :: rest, (successes, store) =>
    if endpoint = "orders" ∧ pyget item "woo_order_id" ∈ completed then
      batchGo net endpoint completed rest (successes + 1, store)
    else if endpoint = "customers" ∧ truthy (dget item "email") = false then
      batchGo net endpoint completed rest (successes, store)
    else
      match (upload_to_shopify (net item)).result with
      | .raised => batchGo net endpoint completed rest (successes, store)
      | .raisedOther => batchGo net endpoint completed rest (successes, store)
      | .ok _ =>
        let store' :=
          if endpoint = "orders" ∧ truthy (dget item "woo_order_id") = true then
            save_completed_order (pyget item "woo_order_id") 0 store
          else store
        batchGo net endpoint completed rest (successes + 1, store')
      | .retNone =>
        let store' :=
          if endpoint = "orders" ∧ truthy (dget item "woo_order_id") = true then
            save_completed_order (pyget item "woo_order_id") 0 store
          else store
        batchGo net endpoint completed rest (successes + 1, store')

/-- `batch_upload` (scripts/load.py lines 157-210): loads the completed-order
list once when resuming an orders run, then processes the items in order
starting from the given progress-file state.  Returns the success count and
the final progress-file state. -/
def batch_upload {β : Type} (net : Order → Nat → ReqOutcome β) (endpoint : String)
    (items : List Order) (resume_mode : Bool) (store0 : ProgressFile) :
    Nat × ProgressFile :=
  let completed := if endpoint = "orders" ∧ resume_mode = true then load_completed_orders store0 else []
  batchGo net endpoint completed items (0, store0)

/-- Environment in which every request receives an HTTP 429 with no
`Retry-After` header. -/
def envAll429 : Nat → ReqOutcome Nat := fun _ => .resp 429 none none 0

/-- Environment in which the first request receives an HTTP 500 and every
later request an HTTP 200 (no rate-limit header, body `7`). -/
def env500then200 : Nat → ReqOutcome Nat := fun i =>
  if i = 0 then .resp 500 none none 0 else .resp 200 none none 7

/-- Environment in which request 14 (the last attempt of the last cycle)
receives an HTTP 429 and every other request a transport failure. -/
def envLate429 : Nat → ReqOutcome Nat := fun i =>
  if i = 14 then .resp 429 none none 0 else .exn

/-- Environment in which every request fails with an HTTP 500. -/
def envAll500 : Nat → ReqOutcome Nat := fun _ => .resp 500 none none 0

/-- Network in which every request for every item receives an HTTP 429. -/
def netAll429 : Order → Nat → ReqOutcome Nat := fun _ => envAll429

/-- Network in which every request for every item receives an HTTP 200 with
body `7` and no rate-limit header. -/
def netAllOk : Order → Nat → ReqOutcome Nat := fun _ _ => .resp 200 none none 7

/-- A paid order with an email but no `created_at` and no `processed_at`. -/
def orderPaidNoCreated : Order :=
  [("financial_status", .str "paid"), ("email", .str "a@b.com")]

/-- A non-paid order carrying a `processed_at` key and an email. -/
def orderPendingProcessed : Order :=
  [("financial_status", .str "pending"), ("processed_at", .str "2020-01-01T00:00:00"),
   ("email", .str "a@b.com")]

/-- A paid order whose `processed_at` is the literal string `"null"`. -/
def orderPaidNullStr : Order :=
  [("financial_status", .str "paid"), ("processed_at", .str "null"),
   ("created_at", .str "2024-01-01T00:00:00"), ("email", .str "a@b.com")]

/-- A paid order with a normal `created_at` and no `processed_at`. -/
def orderPaidFresh : Order :=
  [("financial_status", .str "paid"), ("created_at", .str "2024-01-01T00:00:00"),
   ("email", .str "a@b.com")]

/-- An order item with truthy `woo_order_id` 7 and an email. -/
def item7 : Order := [("woo_order_id", .num 7), ("email", .str "a@b.com")]

theorem dget_dset_self (d : Order) (key : String) (v : JVal) :
    dget (dset d key v) key = some v := by
  induction d with
  | nil => simp [dget, dset]
  | cons kv d ih =>
    obtain ⟨k, w⟩ := kv
    by_cases h : k = key
    · simp [dget, dset, h]
    · simp [dget, dset, h, ih]

theorem dget_dset_ne (d : Order) (key key' : String) (v : JVal) (h : key ≠ key') :
    dget (dset d key v) key' = dget d key' := by
  induction d with
  | nil => simp [dget, dset, h]
  | cons kv d ih =>
    obtain ⟨k, w⟩ := kv
    by_cases hk : k = key
    · subst hk
      simp [dget, dset, h]
    · by_cases hk' : k = key'
      · subst hk'
        simp [dget, dset, hk, Ne.symm h]
      · simp [dget, dset, hk, hk', ih]

theorem dget_ddel_self (d : Order) (key : String) :
    dget (ddel d key) key = none := by
  induction d with
  | nil => simp [ddel, dget]
  | cons kv d ih =>
    obtain ⟨k, w⟩ := kv
    by_cases h : k = key
    · simp [ddel, h, ih]
    · simp [ddel, dget, h, ih]

theorem dget_ddel_ne (d : Order) (key key' : String) (h : key ≠ key') :
    dget (ddel d key) key' = dget d key' := by
  induction d with
  | nil => simp [ddel]
  | cons kv d ih =>
    obtain ⟨k, w⟩ := kv
    by_cases hk : k = key
    · subst hk
      simp [ddel, dget, h, ih]
    · by_cases hk' : k = key'
      · subst hk'
        simp [ddel, dget, hk, Ne.symm h]
      · simp [ddel, dget, hk, hk', ih]

theorem truthy_isSome {ov : Option JVal} (h : truthy ov = true) : ov.isSome = true := by
  cases ov with
  | none => simp [truthy] at h
  | some v => rfl

theorem truthy_ne_some_null {ov : Option JVal} (h : truthy ov = true) :
    ov ≠ some JVal.null := by
  intro he
  rw [he] at h
  simp [truthy] at h

theorem truthy_pyget {d : Order} {key : String} (h : truthy (dget d key) = true) :
    pyget d key ≠ JVal.null := by
  cases hv : dget d key with
  | none => rw [hv] at h; simp [truthy] at h
  | some v =>
    rw [hv] at h
    simp only [pyget, hv, Option.getD_some]
    intro he
    rw [he] at h
    simp [truthy] at h

/-- C5 counterexample input: on a paid order with no `created_at`,
`fix_order_data_for_shopify` returns a record whose `processed_at` key is
present but carries JSON `null` (`order['processed_at'] =
order.get('created_at')` stores Python `None`), contradicting the claimed
non-null invariant for paid orders. -/
theorem C5_counterexample :
    fix_order_data_for_shopify orderPaidNoCreated =
      some [("financial_status", .str "paid"), ("email", .str "a@b.com"),
        ("processed_at", JVal.null)] ∧
    dget [("financial_status", JVal.str "paid"), ("email", JVal.str "a@b.com"),
        ("processed_at", JVal.null)] "processed_at" = some JVal.null := by
  constructor <;> decide

/-- C5 (amended): every record returned by the sanitizer has a truthy
(non-empty) `email`; when the input's `financial_status` is `"paid"` the
`processed_at` key is present, and it is non-null provided the input's
`created_at` is truthy; when the status is not `"paid"` the returned record
has no `processed_at` key. -/
theorem C5_amended (o r : Order) (h : fix_order_data_for_shopify o = some r) :
    truthy (dget r "email") = true ∧
    (dget o "financial_status" = some (.str "paid") →
      (dget r "processed_at").isSome = true ∧
      (truthy (dget o "created_at") = true → dget r "processed_at" ≠ some JVal.null)) ∧
    (dget o "financial_status" ≠ some (.str "paid") → dget r "processed_at" = none) := by
  unfold fix_order_data_for_shopify fix_order_data_run at h
  by_cases hvd : dget o "financial_status" = some (JVal.str "voided")
  · simp [hvd] at h
  · rw [if_neg hvd] at h
    by_cases hp : dget o "financial_status" = some (JVal.str "paid")
    · rw [if_pos hp] at h
      by_cases h1 : truthy (dget o "processed_at") = false
      · rw [if_pos h1] at h
        by_cases he : truthy (dget (dset o "processed_at" (pyget o "created_at")) "email") = false
        · simp only [he, if_true] at h
          simp at h
        · rw [if_neg he] at h
          simp only [Option.some_inj] at h
          subst h
          rw [Bool.not_eq_false] at he
          refine ⟨he, fun _ => ⟨?_, fun hcr => ?_⟩, fun hnp => absurd hp hnp⟩
          · rw [dget_dset_self]; rfl
          · rw [dget_dset_self]
            have := truthy_pyget hcr
            simp [this]
      · rw [if_neg h1] at h
        by_cases h2 : dget o "processed_at" = some JVal.null ∨
            dget o "processed_at" = some (JVal.str "") ∨
            dget o "processed_at" = some (JVal.str "null")
        · rw [if_pos h2] at h
          by_cases he : truthy (dget (dset o "processed_at" (pyget o "created_at")) "email") = false
          · simp only [he, if_true] at h
            simp at h
          · rw [if_neg he] at h
            simp only [Option.some_inj] at h
            subst h
            rw [Bool.not_eq_false] at he
            refine ⟨he, fun _ => ⟨?_, fun hcr => ?_⟩, fun hnp => absurd hp hnp⟩
            · rw [dget_dset_self]; rfl
            · rw [dget_dset_self]
              have := truthy_pyget hcr
              simp [this]
        · rw [if_neg h2] at h
          by_cases he : truthy (dget o "email") = false
          · simp only [he, if_true] at h
            simp at h
          · rw [if_neg he] at h
            simp only [Option.some_inj] at h
            subst h
            rw [Bool.not_eq_false] at h1 he
            refine ⟨he, fun _ => ⟨truthy_isSome h1, fun _ => truthy_ne_some_null h1⟩,
              fun hnp => absurd hp hnp⟩
    · rw [if_neg hp] at h
      by_cases he : truthy (dget (ddel o "processed_at") "email") = false
      · simp only [he, if_true] at h
        simp at h
      · rw [if_neg he] at h
        simp only [Option.some_inj] at h
        subst h
        rw [Bool.not_eq_false] at he
        exact ⟨he, fun hpaid => absurd hpaid hp, fun _ => dget_ddel_self o "processed_at"⟩

/-- Witness for C5 (amended) at a concrete paid order with truthy
`created_at`: the sanitizer output of `orderPaidFresh`. -/
theorem C5_amended_witness :
    truthy (dget (dset orderPaidFresh "processed_at" (pyget orderPaidFresh "created_at"))
      "email") = true ∧
    (dget orderPaidFresh "financial_status" = some (.str "paid") →
      (dget (dset orderPaidFresh "processed_at" (pyget orderPaidFresh "created_at"))
        "processed_at").isSome = true ∧
      (truthy (dget orderPaidFresh "created_at") = true →
        dget (dset orderPaidFresh "processed_at" (pyget orderPaidFresh "created_at"))
          "processed_at" ≠ some JVal.null)) ∧
    (dget orderPaidFresh "financial_status" ≠ some (.str "paid") →
      dget (dset orderPaidFresh "processed_at" (pyget orderPaidFresh "created_at"))
        "processed_at" = none) :=
  C5_amended orderPaidFresh
    (dset orderPaidFresh "processed_at" (pyget orderPaidFresh "created_at")) (by decide)

/-- C6 counterexample: on a non-paid order carrying a `processed_at` key,
`fix_order_data_for_shopify` deletes the key from the caller's dict in place
(`del order['processed_at']`), so after the call the caller's record differs
from what was passed in — the sanitizer is not a pure transform of its
input. -/
theorem C6_counterexample :
    (fix_order_data_run orderPendingProcessed).2 ≠ orderPendingProcessed ∧
    (fix_order_data_run orderPendingProcessed).2 =
      [("financial_status", .str "pending"), ("email", .str "a@b.com")] := by
  constructor <;> decide

/-- C6 (amended): the sanitizer's only side effect is the in-place update of
the input record's `processed_at` entry: the value it returns is either the
exclusion sentinel or exactly the caller's record in its post-call state, and
that post-call state agrees with the original input on every key other than
`processed_at`. -/
theorem C6_amended (o : Order) :
    ((fix_order_data_run o).1 = none ∨
      (fix_order_data_run o).1 = some (fix_order_data_run o).2) ∧
    ∀ k, k ≠ "processed_at" → dget (fix_order_data_run o).2 k = dget o k := by
  unfold fix_order_data_run
  by_cases hvd : dget o "financial_status" = some (JVal.str "voided")
  · rw [if_pos hvd]
    exact ⟨Or.inl rfl, fun _ _ => rfl⟩
  · rw [if_neg hvd]
    by_cases hp : dget o "financial_status" = some (JVal.str "paid")
    · rw [if_pos hp]
      by_cases h1 : truthy (dget o "processed_at") = false
      · rw [if_pos h1]
        by_cases he : truthy (dget (dset o "processed_at" (pyget o "created_at")) "email") = false
        · rw [if_pos he]
          exact ⟨Or.inl rfl, fun k hk => dget_dset_ne o "processed_at" k _ (Ne.symm hk)⟩
        · rw [if_neg he]
          exact ⟨Or.inr rfl, fun k hk => dget_dset_ne o "processed_at" k _ (Ne.symm hk)⟩
      · rw [if_neg h1]
        by_cases h2 : dget o "processed_at" = some JVal.null ∨
            dget o "processed_at" = some (JVal.str "") ∨
            dget o "processed_at" = some (JVal.str "null")
        · rw [if_pos h2]
          by_cases he : truthy (dget (dset o "processed_at" (pyget o "created_at")) "email") = false
          · rw [if_pos he]
            exact ⟨Or.inl rfl, fun k hk => dget_dset_ne o "processed_at" k _ (Ne.symm hk)⟩
          · rw [if_neg he]
            exact ⟨Or.inr rfl, fun k hk => dget_dset_ne o "processed_at" k _ (Ne.symm hk)⟩
        · rw [if_neg h2]
          by_cases he : truthy (dget o "email") = false
          · rw [if_pos he]
            exact ⟨Or.inl rfl, fun _ _ => rfl⟩
          · rw [if_neg he]
            exact ⟨Or.inr rfl, fun _ _ => rfl⟩
    · rw [if_neg hp]
      by_cases he : truthy (dget (ddel o "processed_at") "email") = false
      · rw [if_pos he]
        exact ⟨Or.inl rfl, fun k hk => dget_ddel_ne o "processed_at" k (Ne.symm hk)⟩
      · rw [if_neg he]
        exact ⟨Or.inr rfl, fun k hk => dget_ddel_ne o "processed_at" k (Ne.symm hk)⟩

/-- Witness for C6 (amended) at `orderPendingProcessed`, reading back the
untouched `email` key. -/
theorem C6_amended_witness :
    ((fix_order_data_run orderPendingProcessed).1 = none ∨
      (fix_order_data_run orderPendingProcessed).1 =
        some (fix_order_data_run orderPendingProcessed).2) ∧
    dget (fix_order_data_run orderPendingProcessed).2 "email" =
      dget orderPendingProcessed "email" :=
  ⟨(C6_amended orderPendingProcessed).1,
    (C6_amended orderPendingProcessed).2 "email" (by decide)⟩

/-- C7: for a paid order whose `processed_at` is missing, `null`, the empty
string, or the literal string `"null"`, the sanitizer's returned record has
`processed_at = order.get('created_at')` (the stored value is JSON `null`
exactly when `created_at` is itself absent or null). -/
theorem C7_processed_at_from_created_at (o r : Order)
    (hp : dget o "financial_status" = some (.str "paid"))
    (hbad : dget o "processed_at" = none ∨ dget o "processed_at" = some JVal.null ∨
      dget o "processed_at" = some (.str "") ∨ dget o "processed_at" = some (.str "null"))
    (h : fix_order_data_for_shopify o = some r) :
    dget r "processed_at" = some (pyget o "created_at") := by
  unfold fix_order_data_for_shopify fix_order_data_run at h
  have hvd : ¬ dget o "financial_status" = some (JVal.str "voided") := by
    rw [hp]; intro hc; simp at hc
  rw [if_neg hvd, if_pos hp] at h
  by_cases h1 : truthy (dget o "processed_at") = false
  · rw [if_pos h1] at h
    by_cases he : truthy (dget (dset o "processed_at" (pyget o "created_at")) "email") = false
    · rw [if_pos he] at h
      simp at h
    · rw [if_neg he] at h
      simp only [Option.some_inj] at h
      subst h
      exact dget_dset_self o "processed_at" _
  · rw [if_neg h1] at h
    rw [Bool.not_eq_false] at h1
    have h2 : dget o "processed_at" = some JVal.null ∨
        dget o "processed_at" = some (JVal.str "") ∨
        dget o "processed_at" = some (JVal.str "null") := by
      rcases hbad with hb | hb | hb | hb
      · rw [hb] at h1; simp [truthy] at h1
      · exact Or.inl hb
      · exact Or.inr (Or.inl hb)
      · exact Or.inr (Or.inr hb)
    rw [if_pos h2] at h
    by_cases he : truthy (dget (dset o "processed_at" (pyget o "created_at")) "email") = false
    · rw [if_pos he] at h
      simp at h
    · rw [if_neg he] at h
      simp only [Option.some_inj] at h
      subst h
      exact dget_dset_self o "processed_at" _

/-- Witness for C7 at a concrete paid order whose `processed_at` is the
literal string `"null"`. -/
theorem C7_processed_at_witness :
    dget (dset orderPaidNullStr "processed_at" (pyget orderPaidNullStr "created_at"))
      "processed_at" = some (pyget orderPaidNullStr "created_at") :=
  C7_processed_at_from_created_at orderPaidNullStr
    (dset orderPaidNullStr "processed_at" (pyget orderPaidNullStr "created_at"))
    (by decide) (by decide) (by decide)

/-- C8: phone normalization casewise on the stripped digit count.  The
claim's cases "11 digits starting with 1" and "10 or more digits otherwise"
both produce `+` followed by the digits, so every digit count of at least 11
yields that result; exactly 10 digits yield `+1` followed by the digits; and
fewer than 10 digits, or an empty (falsy) input, yield no result. -/
theorem C8_phone_spec (phone : String) :
    ((strip_digits phone).length = 10 →
      format_phone_e164 phone = some ("+1" ++ strip_digits phone)) ∧
    (11 ≤ (strip_digits phone).length →
      format_phone_e164 phone = some ("+" ++ strip_digits phone)) ∧
    ((strip_digits phone).length < 10 ∨ phone = "" →
      format_phone_e164 phone = none) := by
  by_cases hp : phone = ""
  · subst hp
    refine ⟨?_, ?_, fun _ => rfl⟩
    · intro h
      have : strip_digits "" = "" := rfl
      rw [this] at h
      simp at h
    · intro h
      have : strip_digits "" = "" := rfl
      rw [this] at h
      simp at h
  · unfold format_phone_e164
    rw [if_neg hp]
    refine ⟨fun h10 => ?_, fun h11 => ?_, fun hlt => ?_⟩
    · rw [if_pos h10]
    · have hne10 : ¬ (strip_digits phone).length = 10 := by omega
      rw [if_neg hne10]
      by_cases hh : (strip_digits phone).length = 11 ∧
          (strip_digits phone).data.head? = some '1'
      · rw [if_pos hh]
      · rw [if_neg hh, if_pos (by omega : 10 ≤ (strip_digits phone).length)]
    · rcases hlt with hlt | he
      · have hne10 : ¬ (strip_digits phone).length = 10 := by omega
        have hne11 : ¬ ((strip_digits phone).length = 11 ∧
            (strip_digits phone).data.head? = some '1') := by
          intro hc
          omega
        have hnge : ¬ 10 ≤ (strip_digits phone).length := by omega
        rw [if_neg hne10, if_neg hne11, if_neg hnge]
      · exact absurd he hp

/-- Witness for C8 at concrete phone strings: a formatted 10-digit US number,
an 11-digit number with country code, and a too-short number. -/
theorem C8_phone_spec_witness :
    format_phone_e164 "(555) 123-4567" = some ("+1" ++ strip_digits "(555) 123-4567") ∧
    format_phone_e164 "+1 555 123 4567" = some ("+" ++ strip_digits "+1 555 123 4567") ∧
    format_phone_e164 "123" = none :=
  ⟨(C8_phone_spec "(555) 123-4567").1 (by decide),
    (C8_phone_spec "+1 555 123 4567").2.1 (by decide),
    (C8_phone_spec "123").2.2 (Or.inl (by decide))⟩

/-- C9: recording an id that is already stored is a no-op on the file state;
recording twice equals recording once; and recording the same id twice into
an empty (missing) store yields a stored list containing that id exactly
once. -/
theorem C9_progress_idem (woo : JVal) (f : ProgressFile) (t t' : Nat) :
    (woo ∈ load_completed_orders f → save_completed_order woo t f = f) ∧
    save_completed_order woo t' (save_completed_order woo t f) =
      save_completed_order woo t f ∧
    (load_completed_orders
      (save_completed_order woo t' (save_completed_order woo t .missing))).count woo = 1 := by
  have hsave : ∀ (s : Nat), woo ∉ load_completed_orders f →
      save_completed_order woo s f = .valid (load_completed_orders f ++ [woo]) s := by
    intro s hmem
    unfold save_completed_order
    rw [if_neg hmem]
  have hnoop : ∀ (s : Nat), woo ∈ load_completed_orders f →
      save_completed_order woo s f = f := by
    intro s hmem
    unfold save_completed_order
    rw [if_pos hmem]
  refine ⟨hnoop t, ?_, ?_⟩
  · by_cases hmem : woo ∈ load_completed_orders f
    · rw [hnoop t hmem, hnoop t' hmem]
    · rw [hsave t hmem]
      have hin : woo ∈ load_completed_orders (ProgressFile.valid
          (load_completed_orders f ++ [woo]) t) := by
        simp [load_completed_orders]
      unfold save_completed_order
      rw [if_pos hin]
  · have h1 : save_completed_order woo t .missing = .valid [woo] t := by
      unfold save_completed_order
      simp [load_completed_orders]
    rw [h1]
    have h2 : woo ∈ load_completed_orders (ProgressFile.valid [woo] t) := by
      simp [load_completed_orders]
    unfold save_completed_order
    rw [if_pos h2]
    simp [load_completed_orders]

/-- Witness for C9 at a concrete id and store already containing it. -/
theorem C9_progress_idem_witness :
    save_completed_order (.num 1) 0 (.valid [.num 1] 5) = .valid [.num 1] 5 ∧
    save_completed_order (.num 1) 7 (save_completed_order (.num 1) 0 (.valid [.num 1] 5)) =
      save_completed_order (.num 1) 0 (.valid [.num 1] 5) ∧
    (load_completed_orders
      (save_completed_order (.num 1) 7 (save_completed_order (.num 1) 0 .missing))).count
        (.num 1) = 1 :=
  ⟨(C9_progress_idem (.num 1) (.valid [.num 1] 5) 0 7).1 (by decide),
    (C9_progress_idem (.num 1) (.valid [.num 1] 5) 0 7).2.1,
    (C9_progress_idem (.num 1) (.valid [.num 1] 5) 0 7).2.2⟩

/-- C10: the rate limiter is not total over header strings.  Whenever the
`current/max` header parses with a zero max component (e.g. `"5/0"`), the
division `current / max_limit` raises `ZeroDivisionError`, which the
`except (ValueError, AttributeError)` clause does not catch; the 0.5s
sleep-and-assume-`0/40` fallback fires exactly on headers that fail integer
parsing. -/
theorem C10_rate_limit_zero_div (h : String) (current : Int) :
    (parseLimit h = some (current, 0) → check_rate_limit_and_wait (some h) = .error ()) ∧
    (parseLimit h = none → check_rate_limit_and_wait (some h) = .ok (1/2, 0, 40)) ∧
    check_rate_limit_and_wait (some "5/0") = .error () := by
  refine ⟨fun hp => ?_, fun hp => ?_, ?_⟩
  · simp [check_rate_limit_and_wait, hp]
  · simp [check_rate_limit_and_wait, hp]
  · have hp : parseLimit "5/0" = some (5, 0) := by decide
    simp [check_rate_limit_and_wait, hp]

/-- Witness for C10 at the header `"5/0"` (zero max: uncaught
`ZeroDivisionError`) and the malformed header `"abc"` (`ValueError`
fallback). -/
theorem C10_rate_limit_witness :
    check_rate_limit_and_wait (some "5/0") = .error () ∧
    check_rate_limit_and_wait (some "abc") = .ok (1/2, 0, 40) :=
  ⟨(C10_rate_limit_zero_div "5/0" 5).1 (by decide), (C10_rate_limit_zero_div "abc" 0).2.1 (by decide)⟩

theorem runAttempts_reqIdx_le {β : Type} (env : Nat → ReqOutcome β) (R : Nat) (L : Bool) :
    ∀ k i, i ≤ (runAttempts env R L k i).reqIdx := by
  intro k
  induction k with
  | zero => intro i; simp [runAttempts]
  | succ k ih =>
    intro i
    have hstep : i + 1 ≤ (runAttempts env R L k (i + 1)).reqIdx := ih (i + 1)
    rcases henv : env i with _ | ⟨s, ra, lh, b⟩ <;>
      simp only [runAttempts, henv]
    · split
      · split <;> simp
      · simp only [InnerRes.reqIdx]
        omega
    · split
      · simp only [InnerRes.reqIdx]
        omega
      · split
        · split <;> simp
        · split
          · split
            · split <;> simp
            · simp only [InnerRes.reqIdx]
              omega
          · simp

theorem runAttempts_last_nextCycle_429 {β : Type} (env : Nat → ReqOutcome β) (R : Nat) :
    ∀ k i, 1 ≤ k → (runAttempts env R true k i).exit = .nextCycle →
      i < (runAttempts env R true k i).reqIdx ∧
      is429 (env ((runAttempts env R true k i).reqIdx - 1)) = true := by
  intro k
  induction k with
  | zero => intro i h; omega
  | succ k ih =>
    intro i _ hexit
    rcases henv : env i with _ | ⟨s, ra, lh, b⟩
    · by_cases hk : k = 0
      · subst hk
        simp [runAttempts, henv] at hexit
      · simp only [runAttempts, henv, if_neg hk, InnerRes.exit, InnerRes.reqIdx] at hexit ⊢
        obtain ⟨h1, h2⟩ := ih (i + 1) (by omega) hexit
        exact ⟨by omega, h2⟩
    · by_cases hs429 : s = 429
      · subst hs429
        by_cases hk : k = 0
        · subst hk
          simp only [runAttempts, henv, eq_self_iff_true, if_true, InnerRes.exit,
            InnerRes.reqIdx] at hexit ⊢
          refine ⟨by omega, ?_⟩
          simp [henv, is429]
        · simp only [runAttempts, henv, eq_self_iff_true, if_true, InnerRes.exit,
            InnerRes.reqIdx] at hexit ⊢
          obtain ⟨h1, h2⟩ := ih (i + 1) (by omega) hexit
          exact ⟨by omega, h2⟩
      · by_cases hs200 : s = 200
        · subst hs200
          rcases hc : check_rate_limit_and_wait lh with he | ⟨w, c, m⟩ <;>
            simp [runAttempts, henv, hc] at hexit
        · by_cases hrange : 400 ≤ s ∧ s < 600
          · by_cases hk : k = 0
            · subst hk
              simp [runAttempts, henv, hs429, hs200, hrange] at hexit
            · simp only [runAttempts, henv, if_neg hs429, if_neg hs200, if_pos hrange,
                if_neg hk, InnerRes.exit, InnerRes.reqIdx] at hexit ⊢
              obtain ⟨h1, h2⟩ := ih (i + 1) (by omega) hexit
              exact ⟨by omega, h2⟩
          · simp [runAttempts, henv, hs429, hs200, hrange] at hexit

theorem runCycles_retNone_429 {β : Type} (env : Nat → ReqOutcome β) (R : Nat) (hR : 1 ≤ R) :
    ∀ c i, 1 ≤ c → (runCycles env R c i).result = .retNone →
      i < (runCycles env R c i).reqs ∧
      is429 (env ((runCycles env R c i).reqs - 1)) = true := by
  intro c
  induction c with
  | zero => intro i h; omega
  | succ c ih =>
    intro i _ hres
    by_cases hc : c = 0
    · subst hc
      rcases hexit : (runAttempts env R (0 == 0) R i).exit with b | _ | _ | _ <;>
        simp only [runCycles, hexit, RunRes.result, RunRes.reqs] at hres ⊢
      · exact absurd hres (by simp)
      · exact absurd hres (by simp)
      · exact absurd hres (by simp)
      · exact runAttempts_last_nextCycle_429 env R R i hR hexit
    · have hbeq : (c == 0) = false := by
        simp [hc]
      rcases hexit : (runAttempts env R (c == 0) R i).exit with b | _ | _ | _ <;>
        simp only [runCycles, hexit, RunRes.result, RunRes.reqs] at hres ⊢
      · exact absurd hres (by simp)
      · exact absurd hres (by simp)
      · exact absurd hres (by simp)
      · obtain ⟨h1, h2⟩ := ih ((runAttempts env R (c == 0) R i).reqIdx) (by omega) hres
        have hle : i ≤ (runAttempts env R (c == 0) R i).reqIdx :=
          runAttempts_reqIdx_le env R (c == 0) R i
        exact ⟨by omega, h2⟩

/-- C1 counterexample: when every request receives a 429, each `continue`
advances the attempt loop, so after 15 requests (3 attempts × 5 cycles) both
loops complete and `upload_to_shopify` terminates without having succeeded
and without raising — it implicitly returns `None`, contradicting the claim
that every execution either returns a parsed body or raises. -/
theorem C1_counterexample :
    (upload_to_shopify envAll429).result = .retNone ∧
    (upload_to_shopify envAll429).reqs = 15 := by
  constructor <;> rfl

/-- C1 (amended): with the default budgets (3 attempts, 5 cycles),
`upload_to_shopify` either returns the parsed body of a successful request,
or raises after exhausting its retries (or propagates the rate limiter's
uncaught error), or — in exactly one further case — implicitly returns
`None`: that case requires at least one request, and the final request of the
run is then a 429 response (the `continue` that ends the last attempt of the
last cycle). -/
theorem C1_amended {β : Type} (env : Nat → ReqOutcome β)
    (h : (upload_to_shopify env).result = .retNone) :
    0 < (upload_to_shopify env).reqs ∧
    is429 (env ((upload_to_shopify env).reqs - 1)) = true := by
  unfold upload_to_shopify at h ⊢
  have := runCycles_retNone_429 env 3 (by omega) 5 0 (by omega) h
  exact ⟨by omega, this.2⟩

/-- Witness for C1 (amended) at the all-429 environment. -/
theorem C1_amended_witness :
    0 < (upload_to_shopify envAll429).reqs ∧
    is429 (envAll429 ((upload_to_shopify envAll429).reqs - 1)) = true :=
  C1_amended envAll429 (by rfl)

theorem runAttempts_allFailure {β : Type} (env : Nat → ReqOutcome β) (R : Nat) (L : Bool)
    (hfail : ∀ n, isFailure (env n) = true) :
    ∀ k i, 1 ≤ k →
      (runAttempts env R L k i).exit = (if L then InnerExit.raiseReq else InnerExit.nextCycle) ∧
      (runAttempts env R L k i).reqIdx = i + k := by
  intro k
  induction k with
  | zero => intro i h; omega
  | succ k ih =>
    intro i _
    rcases henv : env i with _ | ⟨s, ra, lh, b⟩
    · by_cases hk : k = 0
      · subst hk
        cases L <;> simp [runAttempts, henv]
      · simp only [runAttempts, henv, if_neg hk, InnerRes.exit, InnerRes.reqIdx]
        obtain ⟨he, hr⟩ := ih (i + 1) (by omega)
        exact ⟨he, by omega⟩
    · have hthis := hfail i
      rw [henv] at hthis
      simp only [isFailure, Bool.and_eq_true, decide_eq_true_eq, bne_iff_ne] at hthis
      obtain ⟨⟨hs400, hs600⟩, hs429⟩ := hthis
      have h429 : ¬ s = 429 := hs429
      have h200 : ¬ s = 200 := by omega
      have hrange : 400 ≤ s ∧ s < 600 := ⟨hs400, hs600⟩
      by_cases hk : k = 0
      · subst hk
        cases L <;>
          simp [runAttempts, henv, h429, h200, hrange]
      · simp only [runAttempts, henv, if_neg h429, if_neg h200, if_pos hrange, if_neg hk,
          InnerRes.exit, InnerRes.reqIdx]
        obtain ⟨he, hr⟩ := ih (i + 1) (by omega)
        exact ⟨he, by omega⟩

theorem runCycles_allFailure {β : Type} (env : Nat → ReqOutcome β) (R : Nat) (hR : 1 ≤ R)
    (hfail : ∀ n, isFailure (env n) = true) :
    ∀ c i, 1 ≤ c →
      (runCycles env R c i).result = .raised ∧ (runCycles env R c i).reqs = i + c * R := by
  intro c
  induction c with
  | zero => intro i h; omega
  | succ c ih =>
    intro i _
    by_cases hc : c = 0
    · subst hc
      have hbeq : ((0 : Nat) == 0) = true := rfl
      obtain ⟨he, hr⟩ := runAttempts_allFailure env R true hfail R i hR
      simp only [if_true] at he
      simp only [runCycles, hbeq, he, RunRes.result, RunRes.reqs]
      exact ⟨by simp, by omega⟩
    · have hbeq : (c == 0) = false := by simp [hc]
      obtain ⟨he, hr⟩ := runAttempts_allFailure env R false hfail R i hR
      simp only [Bool.false_eq_true, if_false] at he
      obtain ⟨hres, hreqs⟩ := ih ((runAttempts env R false R i).reqIdx) (by omega)
      simp only [runCycles, hbeq, he, RunRes.result, RunRes.reqs]
      refine ⟨hres, ?_⟩
      rw [hreqs, hr]
      ring

/-- C2 counterexample: a first request answered with HTTP 500 is *not*
terminal.  `response.raise_for_status()` raises `HTTPError`, which is a
`requests.exceptions.RequestException` and is therefore caught by the retry
handler: the call backs off, issues a second request, and returns that
request's body — contradicting the claim that no further attempts are
performed and that the exception propagates to the caller. -/
theorem C2_counterexample :
    (upload_to_shopify env500then200).result = .ok 7 ∧
    (upload_to_shopify env500then200).reqs = 2 := by
  constructor <;> rfl

/-- C2 (amended): an HTTP error status (4xx/5xx other than the separately
handled 429) is routed to the same `except` handler as a transport failure
and retried with backoff; it is terminal only once every attempt of every
cycle has failed.  With the default budgets, an environment in which every
request fails this way performs all 15 requests and only then propagates the
exception to the caller. -/
theorem C2_amended {β : Type} (env : Nat → ReqOutcome β)
    (hfail : ∀ n, isFailure (env n) = true) :
    (upload_to_shopify env).result = .raised ∧ (upload_to_shopify env).reqs = 15 := by
  unfold upload_to_shopify
  have := runCycles_allFailure env 3 (by omega) hfail 5 0 (by omega)
  exact ⟨this.1, by omega⟩

/-- Witness for C2 (amended) at the all-500 environment. -/
theorem C2_amended_witness :
    (upload_to_shopify envAll500).result = .raised ∧
    (upload_to_shopify envAll500).reqs = 15 :=
  C2_amended envAll500 (fun _ => rfl)

/-- C3 counterexample: when the 429 arrives on the last attempt of the last
cycle (environment `envLate429`: requests 0-13 are transport failures,
request 14 a 429), the client sleeps the `Retry-After` value and then makes
*no* further request: the `continue` ends the attempt loop, both loops
complete after exactly 15 requests, and the call returns the implicit `None`.
The claim that the same attempt is retried after the sleep (without consuming
an attempt slot) would require a 16th request. -/
theorem C3_counterexample :
    (upload_to_shopify envLate429).result = .retNone ∧
    (upload_to_shopify envLate429).reqs = 15 ∧
    (upload_to_shopify envLate429).sleeps.getLast? = some (.retryAfter 5) := by
  refine ⟨rfl, rfl, ?_⟩
  rfl

/-- C3 (amended): a 429 response at attempt-loop state `attemptsLeft = k + 1`
makes the client sleep for the `Retry-After` header value (5 seconds when the
header is absent) and then `continue`, which *consumes an attempt slot*: the
loop proceeds exactly as the same run with `attemptsLeft = k` starting at the
next request index (and when `k = 0` the cycle simply ends, without the 10s
inter-cycle pause). -/
theorem C3_amended {β : Type} (env : Nat → ReqOutcome β) (R : Nat) (L : Bool)
    (k i : Nat) (ra : Option Nat) (lh : Option String) (b : β)
    (h : env i = .resp 429 ra lh b) :
    runAttempts env R L (k + 1) i =
      ⟨(runAttempts env R L k (i + 1)).exit, (runAttempts env R L k (i + 1)).reqIdx,
        .retryAfter (ra.getD 5) :: (runAttempts env R L k (i + 1)).sleeps⟩ := by
  simp only [runAttempts, h, eq_self_iff_true, if_true]

/-- Witness for C3 (amended) in the all-429 environment at the first attempt
of a cycle. -/
theorem C3_amended_witness :
    runAttempts envAll429 3 false 3 0 =
      ⟨(runAttempts envAll429 3 false 2 1).exit, (runAttempts envAll429 3 false 2 1).reqIdx,
        .retryAfter 5 :: (runAttempts envAll429 3 false 2 1).sleeps⟩ :=
  C3_amended envAll429 3 false 2 0 none none 0 rfl

theorem mem_load_save (v w : JVal) (t : Nat) (f : ProgressFile) :
    w ∈ load_completed_orders (save_completed_order v t f) ↔
      w ∈ load_completed_orders f ∨ w = v := by
  unfold save_completed_order
  by_cases h : v ∈ load_completed_orders f
  · rw [if_pos h]
    constructor
    · exact Or.inl
    · rintro (hw | rfl)
      · exact hw
      · exact h
  · rw [if_neg h]
    simp [load_completed_orders]

theorem batchGo_cons_err {β : Type} (net : Order → Nat → ReqOutcome β) (item : Order)
    (rest : List Order) (s : Nat) (store : ProgressFile)
    (h : returnedNormally (upload_to_shopify (net item)).result = false) :
    batchGo net "orders" [] (item :: rest) (s, store) =
      batchGo net "orders" [] rest (s, store) := by
  rcases hup : (upload_to_shopify (net item)).result with b | _ | _ | _
  · rw [hup] at h; simp [returnedNormally] at h
  · simp [batchGo, hup]
  · simp [batchGo, hup]
  · rw [hup] at h; simp [returnedNormally] at h

theorem batchGo_cons_normal {β : Type} (net : Order → Nat → ReqOutcome β) (item : Order)
    (rest : List Order) (s : Nat) (store : ProgressFile)
    (h : returnedNormally (upload_to_shopify (net item)).result = true) :
    batchGo net "orders" [] (item :: rest) (s, store) =
      batchGo net "orders" [] rest (s + 1,
        if truthy (dget item "woo_order_id") = true then
          save_completed_order (pyget item "woo_order_id") 0 store
        else store) := by
  rcases hup : (upload_to_shopify (net item)).result with b | _ | _ | _
  · simp [batchGo, hup]
  · rw [hup] at h; simp [returnedNormally] at h
  · rw [hup] at h; simp [returnedNormally] at h
  · simp [batchGo, hup]

theorem batchGo_orders_mem {β : Type} (net : Order → Nat → ReqOutcome β) (v : JVal) :
    ∀ (items : List Order) (successes : Nat) (store : ProgressFile),
      v ∈ load_completed_orders (batchGo net "orders" [] items (successes, store)).2 ↔
        v ∈ load_completed_orders store ∨
        ∃ item, item ∈ items ∧ pyget item "woo_order_id" = v ∧
          truthy (dget item "woo_order_id") = true ∧
          returnedNormally (upload_to_shopify (net item)).result = true := by
  intro items
  induction items with
  | nil =>
    intro successes store
    simp [batchGo]
  | cons item rest ih =>
    intro s store
    by_cases hnorm : returnedNormally (upload_to_shopify (net item)).result = true
    · rw [batchGo_cons_normal net item rest s store hnorm]
      by_cases htr : truthy (dget item "woo_order_id") = true
      · rw [if_pos htr, ih, mem_load_save]
        constructor
        · rintro ((hs | hv) | ⟨it, hmem, hrest⟩)
          · exact Or.inl hs
          · exact Or.inr ⟨item, List.mem_cons_self item rest, hv.symm, htr, hnorm⟩
          · exact Or.inr ⟨it, List.mem_cons_of_mem item hmem, hrest⟩
        · rintro (hs | ⟨it, hmem, hid, htr', hnorm'⟩)
          · exact Or.inl (Or.inl hs)
          · rcases List.mem_cons.mp hmem with rfl | hmem'
            · exact Or.inl (Or.inr hid.symm)
            · exact Or.inr ⟨it, hmem', hid, htr', hnorm'⟩
      · rw [if_neg htr, ih]
        constructor
        · rintro (hs | ⟨it, hmem, hrest⟩)
          · exact Or.inl hs
          · exact Or.inr ⟨it, List.mem_cons_of_mem item hmem, hrest⟩
        · rintro (hs | ⟨it, hmem, hid, htr', hnorm'⟩)
          · exact Or.inl hs
          · rcases List.mem_cons.mp hmem with rfl | hmem'
            · exact absurd htr' htr
            · exact Or.inr ⟨it, hmem', hid, htr', hnorm'⟩
    · rw [batchGo_cons_err net item rest s store (by simpa using hnorm), ih]
      constructor
      · rintro (hs | ⟨it, hmem, hrest⟩)
        · exact Or.inl hs
        · exact Or.inr ⟨it, List.mem_cons_of_mem item hmem, hrest⟩
      · rintro (hs | ⟨it, hmem, hid, htr', hnorm'⟩)
        · exact Or.inl hs
        · rcases List.mem_cons.mp hmem with rfl | hmem'
          · exact absurd hnorm' hnorm
          · exact Or.inr ⟨it, hmem', hid, htr', hnorm'⟩

/-- C4 counterexample: an order whose every request is answered 429 is *not*
uploaded — `upload_to_shopify` returns the implicit `None` after exhausting
its loops — yet `batch_upload` treats that return like a success: it records
the order's id in the progress file (and counts it), so an identifier is
recorded for an order whose upload never succeeded. -/
theorem C4_counterexample :
    (batch_upload netAll429 "orders" [item7] false .missing).2 =
      .valid [.num 7] 0 ∧
    (upload_to_shopify (netAll429 item7)).result = .retNone := by
  constructor <;> rfl

/-- C4 (amended): in a fresh (non-resume) orders run, an id is in the final
progress store iff it was already stored or some item carries it as a truthy
`woo_order_id` and the Upload Client call for that item *returned without
raising* — which includes both a parsed-body success and the implicit `None`
return after 429 exhaustion.  Recording still happens synchronously, item by
item, as the fold structure of the orchestrator shows. -/
theorem C4_amended {β : Type} (net : Order → Nat → ReqOutcome β) (items : List Order)
    (store0 : ProgressFile) (v : JVal) :
    v ∈ load_completed_orders (batch_upload net "orders" items false store0).2 ↔
      v ∈ load_completed_orders store0 ∨
      ∃ item, item ∈ items ∧ pyget item "woo_order_id" = v ∧
        truthy (dget item "woo_order_id") = true ∧
        returnedNormally (upload_to_shopify (net item)).result = true := by
  have h0 : batch_upload net "orders" items false store0 =
      batchGo net "orders" [] items (0, store0) := by
    simp [batch_upload]
  rw [h0]
  exact batchGo_orders_mem net v items 0 store0

/-- Witness for C4 (amended): id 7 is recorded after the all-429 run on
`item7`. -/
theorem C4_amended_witness :
    JVal.num 7 ∈
      load_completed_orders (batch_upload netAll429 "orders" [item7] false .missing).2 :=
  (C4_amended netAll429 [item7] .missing (.num 7)).mpr
    (Or.inr ⟨item7, by simp, by decide, by decide, by rfl⟩)
